import Mathlib

/-!
Verification of the japan-postal-code conversion pipeline.

The development shallowly embeds the Python sources under `scripts/`:
the pydantic record model (`scripts/models.py`), the CSV readers
(`scripts/main.py`, `scripts/utils.py`), the partitioner
(`scripts/utils.py`), and the format sinks (`scripts/formats/*.py`,
plus the inline sinks of `scripts/main.py`).  Python strings are Lean
`String`s, Python `None` is `Option.none`, Python dicts (which preserve
insertion order) are association lists, raised exceptions are `Except`
errors, and the process-terminating `sys.exit(1)` is an explicit
outcome value.
-/

/-- Models Python's notion of whitespace as used by `str.strip` for the
ASCII range (space, tab, newline, carriage return, vertical tab, form
feed); the sources only ever strip ASCII whitespace from CSV fields. -/
def pyIsSpace (c : Char) : Bool :=
  c = ' ' || c = '\t' || c = '\n' || c = '\r' || c = '\x0b' || c = '\x0c'

/-- Models Python's `str.strip()`: remove leading and trailing
whitespace characters. -/
def pyStrip (s : String) : String :=
  ⟨((s.toList.dropWhile pyIsSpace).reverse.dropWhile pyIsSpace).reverse⟩

/-- Models Python's per-character test behind `str.isdigit`.  Python
accepts every Unicode decimal-digit character, not only ASCII
`0`..`9`; this model covers the ASCII digits and the fullwidth digits
U+FF10..U+FF19 (the ranges relevant to the postal-code data and to the
counterexamples below).  Python additionally accepts further Unicode
digit code points; no string in this development contains them. -/
def pyIsDigit (c : Char) : Bool :=
  c.isDigit || (0xFF10 ≤ c.toNat && c.toNat ≤ 0xFF19)

/-- Models Python's `str.isdigit()`: nonempty and every character is a
digit character. -/
def pyIsDigitStr (s : String) : Bool :=
  !s.toList.isEmpty && s.toList.all pyIsDigit

/-- Models the Python slice `s[:n]`. -/
def strTake (s : String) (n : Nat) : String := ⟨s.toList.take n⟩

/-- Models the Python slice `s[n:]`. -/
def strDrop (s : String) (n : Nat) : String := ⟨s.toList.drop n⟩

/-- Models Python's `len(s)` on strings (number of characters). -/
def strLen (s : String) : Nat := s.toList.length

/-- The validated record of `scripts/models.py` (`JapanPostalCode`).
Fields carry the model's declaration order.  Optional fields
(unvalidated text fields and `old_postal_code`) are `Option String`,
mirroring the readers that pass `None` for empty cells and the
`old_postal_code` validator that normalizes empty to `None`; the five
`Literal` flag fields and `postal_code` always hold a validated
string. -/
structure JapanPostalCode where
  local_government_code : Option String
  old_postal_code : Option String
  postal_code : String
  prefecture_name_kana : Option String
  city_name_kana : Option String
  town_name_kana : Option String
  prefecture_name : Option String
  city_name : Option String
  town_name : Option String
  multiple_postal_codes_per_town : String
  koaza_numbering : String
  has_chome : String
  multiple_towns_per_postal_code : String
  update_status : String
  change_reason : String
deriving DecidableEq, Inhabited, Repr

/-- The raw field strings handed to the `JapanPostalCode(...)`
constructor by the CSV readers, before validation ( `None` models an
absent value). -/
structure RawRow where
  local_government_code : Option String
  old_postal_code : Option String
  postal_code : Option String
  prefecture_name_kana : Option String
  city_name_kana : Option String
  town_name_kana : Option String
  prefecture_name : Option String
  city_name : Option String
  town_name : Option String
  multiple_postal_codes_per_town : Option String
  koaza_numbering : Option String
  has_chome : Option String
  multiple_towns_per_postal_code : Option String
  update_status : Option String
  change_reason : Option String
deriving DecidableEq, Inhabited, Repr

/-- Embeds `validate_postal_code` of `scripts/models.py` (lines
121-131): reject `None`, strip whitespace, then require length 7 and
`str.isdigit`; on success the stripped value is stored. -/
def validate_postal_code : Option String → Except String String
  | none => .error "Postal code cannot be None"
  | some v0 =>
    let v := pyStrip v0
    if strLen v ≠ 7 ∨ pyIsDigitStr v = false then
      .error "Postal code must be 7 digits"
    else
      .ok v

/-- Embeds `validate_old_postal_code` of `scripts/models.py` (lines
133-147): `None` passes through, empty after stripping becomes `None`,
otherwise require 3 or 5 digit characters. -/
def validate_old_postal_code : Option String → Except String (Option String)
  | none => .ok none
  | some v0 =>
    let v := pyStrip v0
    if v = "" then .ok none
    else if ¬ (strLen v = 3 ∨ strLen v = 5) ∨ pyIsDigitStr v = false then
      .error "Old postal code must be 3 or 5 digits"
    else
      .ok (some v)

/-- Embeds pydantic's `Literal[...]` check on the five flag fields of
`scripts/models.py`: the supplied value must be one of the enumerated
strings; an absent value is rejected. -/
def flagOk (allowed : List String) : Option String → Except String String
  | some s => if s ∈ allowed then .ok s else .error "Input should be a valid literal"
  | none => .error "Input should be a valid literal"

/-- Embeds construction `JapanPostalCode(...)`: every field validator
of `scripts/models.py` is applied (in field-declaration order) and the
record is produced only when all of them succeed.  The unvalidated
text fields are stored as given.  Pydantic reports all field errors
together while `Except` keeps the first; the claims only depend on
success versus failure. -/
def mkJapanPostalCode (raw : RawRow) : Except String JapanPostalCode := do
  let old ← validate_old_postal_code raw.old_postal_code
  let pc ← validate_postal_code raw.postal_code
  let f1 ← flagOk ["0", "1"] raw.multiple_postal_codes_per_town
  let f2 ← flagOk ["0", "1"] raw.koaza_numbering
  let f3 ← flagOk ["0", "1"] raw.has_chome
  let f4 ← flagOk ["0", "1"] raw.multiple_towns_per_postal_code
  let f5 ← flagOk ["0", "1", "2"] raw.update_status
  let f6 ← flagOk ["0", "1", "2", "3", "4", "5", "6"] raw.change_reason
  return ⟨raw.local_government_code, old, pc,
    raw.prefecture_name_kana, raw.city_name_kana, raw.town_name_kana,
    raw.prefecture_name, raw.city_name, raw.town_name,
    f1, f2, f3, f4, f5, f6⟩

example : strLen "1760005" = 7 := by decide
example : strTake "1760005" 3 = "176" := by decide
example : strDrop "1760005" 3 = "0005" := by decide
example : pyStrip " 060  " = "060" := by decide
example : pyIsDigitStr "１２３４５６７" = true := by decide
example : ("１２３４５６７".toList.all Char.isDigit) = false := by decide
deriving instance DecidableEq for Except

example : validate_postal_code (some " 1760005 ") = .ok "1760005" := by decide
example : validate_postal_code (some "123") = .error "Postal code must be 7 digits" := by decide

/-- Association-list lookup; models Python dict indexing (dict entries
keep insertion order, so a dict is an association list with distinct
keys). -/
def alookup {α : Type} : List (String × α) → String → Option α
  | [], _ => none
  | (k, v) :: rest, key => if key = k then some v else alookup rest key

/-- The inner `suffix -> records` dictionary of the partitioner. -/
abbrev SuffixDict := List (String × List JapanPostalCode)

/-- The partitioned index: `pre -> suffix -> records`, as produced by
`group_by_postal_code_prefix` in `scripts/utils.py`. -/
abbrev Grouped := List (String × SuffixDict)

/-- Models `grouped[pre][suf].append(record)` on the inner
`defaultdict(list)`: append to the existing bucket, or create a new
bucket at the end (new dict keys are appended in insertion order). -/
def insertSuffix : SuffixDict → String → JapanPostalCode → SuffixDict
  | [], suf, r => [(suf, [r])]
  | (k, v) :: rest, suf, r =>
    if suf = k then (k, v ++ [r]) :: rest else (k, v) :: insertSuffix rest suf r

/-- Models `grouped[pre][suf].append(record)` on the outer
`defaultdict(lambda: defaultdict(list))`. -/
def insertGrouped : Grouped → String → String → JapanPostalCode → Grouped
  | [], pre, suf, r => [(pre, [(suf, [r])])]
  | (k, sd) :: rest, pre, suf, r =>
    if pre = k then (k, insertSuffix sd suf r) :: rest
    else (k, sd) :: insertGrouped rest pre suf r

/-- One iteration of the partitioner's loop in
`group_by_postal_code_prefix` (`scripts/utils.py` lines 249-257):
records whose postal code length is not 7 are counted as skipped,
every other record is appended at key `postal_code[:3]` then
`postal_code[3:]`. -/
def groupStep : Grouped × Nat → JapanPostalCode → Grouped × Nat :=
  fun acc record =>
    let postal_code := record.postal_code
    if strLen postal_code ≠ 7 then (acc.1, acc.2 + 1)
    else
      (insertGrouped acc.1 (strTake postal_code 3) (strDrop postal_code 3) record,
       acc.2)

/-- Embeds `group_by_postal_code_prefix` of `scripts/utils.py` (lines
228-267): a single linear pass over the records, returning the
two-level index together with the skipped-record count.  The final
`dict(...)` conversion in the source is the identity on contents and
order. -/
def group_by_postal_code_prefix (data : List JapanPostalCode) : Grouped × Nat :=
  data.foldl groupStep ([], 0)

/-- The records stored at suffix `suf` of a suffix dictionary (empty
when the key is absent). -/
def bucket1 (sd : SuffixDict) (suf : String) : List JapanPostalCode :=
  (alookup sd suf).getD []

/-- The records stored at `g[pre][suf]` (empty when either key is
absent). -/
def bucketOf (g : Grouped) (pre suf : String) : List JapanPostalCode :=
  bucket1 ((alookup g pre).getD []) suf

/-- Whether a record belongs to the bucket at `(pre, suf)`: length-7
postal code whose first three characters are `pre` and last four are
`suf`. -/
def matchKey (pre suf : String) (r : JapanPostalCode) : Bool :=
  decide (strLen r.postal_code = 7) && decide (strTake r.postal_code 3 = pre)
    && decide (strDrop r.postal_code 3 = suf)

lemma bucket1_insertSuffix (sd : SuffixDict) (suf : String) (r : JapanPostalCode)
    (suf' : String) :
    bucket1 (insertSuffix sd suf r) suf' =
      if suf' = suf then bucket1 sd suf ++ [r] else bucket1 sd suf' := by
  induction sd with
  | nil =>
    by_cases h : suf' = suf <;> simp [insertSuffix, bucket1, alookup, h]
  | cons kv rest ih =>
    obtain ⟨k, v⟩ := kv
    by_cases hk : suf = k
    · subst hk
      by_cases h : suf' = suf <;> simp [insertSuffix, bucket1, alookup, h]
    · by_cases h : suf' = k
      · subst h
        have hns : ¬ suf' = suf := fun he => hk he.symm
        simp [insertSuffix, bucket1, alookup, hk, hns]
      · by_cases hs : suf' = suf
        · subst hs
          simpa [insertSuffix, bucket1, alookup, hk, h] using ih
        · simpa [insertSuffix, bucket1, alookup, hk, h, hs] using ih

lemma alookup_insertGrouped (g : Grouped) (pre suf : String) (r : JapanPostalCode)
    (pre' : String) :
    alookup (insertGrouped g pre suf r) pre' =
      if pre' = pre then some (insertSuffix ((alookup g pre).getD []) suf r)
      else alookup g pre' := by
  induction g with
  | nil =>
    by_cases h : pre' = pre <;> simp [insertGrouped, alookup, h, insertSuffix]
  | cons kv rest ih =>
    obtain ⟨k, sd⟩ := kv
    by_cases hk : pre = k
    · subst hk
      by_cases h : pre' = pre <;> simp [insertGrouped, alookup, h]
    · by_cases h : pre' = k
      · subst h
        have hns : ¬ pre' = pre := fun he => hk he.symm
        simp [insertGrouped, alookup, hk, hns]
      · by_cases hs : pre' = pre
        · subst hs
          simpa [insertGrouped, alookup, hk, h] using ih
        · simpa [insertGrouped, alookup, hk, h, hs] using ih

lemma bucketOf_insertGrouped (g : Grouped) (pre suf : String) (r : JapanPostalCode)
    (pre' suf' : String) :
    bucketOf (insertGrouped g pre suf r) pre' suf' =
      if pre' = pre ∧ suf' = suf then bucketOf g pre suf ++ [r]
      else bucketOf g pre' suf' := by
  unfold bucketOf
  rw [alookup_insertGrouped]
  by_cases hp : pre' = pre
  · subst hp
    rw [if_pos rfl, Option.getD_some, bucket1_insertSuffix]
    by_cases hs : suf' = suf
    · subst hs; simp
    · simp [hs]
  · rw [if_neg hp]
    have hC : ¬ (pre' = pre ∧ suf' = suf) := fun h => hp h.1
    rw [if_neg hC]

lemma bucketOf_fold (data : List JapanPostalCode) (acc : Grouped × Nat)
    (pre suf : String) :
    bucketOf (data.foldl groupStep acc).1 pre suf =
      bucketOf acc.1 pre suf ++ data.filter (matchKey pre suf) := by
  induction data generalizing acc with
  | nil => simp
  | cons r rest ih =>
    rw [List.foldl_cons, ih]
    by_cases h7 : strLen r.postal_code = 7
    · have hstep : groupStep acc r =
          (insertGrouped acc.1 (strTake r.postal_code 3) (strDrop r.postal_code 3) r,
           acc.2) := by
        simp [groupStep, h7]
      rw [hstep]
      simp only [bucketOf_insertGrouped]
      by_cases hm : pre = strTake r.postal_code 3 ∧ suf = strDrop r.postal_code 3
      · obtain ⟨hm1, hm2⟩ := hm
        have hmk : matchKey pre suf r = true := by
          simp [matchKey, h7, hm1.symm, hm2.symm]
        rw [if_pos ⟨hm1, hm2⟩, List.filter_cons_of_pos hmk, hm1, hm2,
          List.append_assoc]
        rfl
      · have hmk : matchKey pre suf r = false := by
          simp only [matchKey, Bool.and_eq_false_iff, decide_eq_false_iff_not]
          by_cases hm1 : strTake r.postal_code 3 = pre
          · right
            intro hm2
            exact hm ⟨hm1.symm, hm2.symm⟩
          · left; right; exact hm1
        have hm' : ¬ (pre = strTake r.postal_code 3 ∧ suf = strDrop r.postal_code 3) :=
          hm
        rw [if_neg hm', List.filter_cons_of_neg (by simp [hmk])]
    · have hstep : groupStep acc r = (acc.1, acc.2 + 1) := by
        simp [groupStep, h7]
      have hmk : matchKey pre suf r = false := by
        simp [matchKey, h7]
      rw [hstep, List.filter_cons_of_neg (by simp [hmk])]

lemma skipped_fold (data : List JapanPostalCode) (acc : Grouped × Nat) :
    (data.foldl groupStep acc).2 =
      acc.2 + data.countP (fun r => decide (strLen r.postal_code ≠ 7)) := by
  induction data generalizing acc with
  | nil => simp
  | cons r rest ih =>
    rw [List.foldl_cons, ih]
    by_cases h7 : strLen r.postal_code = 7
    · have : groupStep acc r =
          (insertGrouped acc.1 (strTake r.postal_code 3) (strDrop r.postal_code 3) r,
           acc.2) := by
        simp [groupStep, h7]
      rw [this, List.countP_cons]
      simp [h7]
    · have : groupStep acc r = (acc.1, acc.2 + 1) := by
        simp [groupStep, h7]
      rw [this, List.countP_cons]
      simp [h7, Nat.add_assoc, Nat.add_comm 1]

lemma key_eq_of_take_drop {p q : String} (hp : strLen p = 7) (hq : strLen q = 7)
    (h3 : strTake q 3 = strTake p 3) (h4 : strDrop q 3 = strDrop p 3) : q = p := by
  obtain ⟨l⟩ := q
  obtain ⟨m⟩ := p
  have h3' : l.take 3 = m.take 3 := congrArg String.toList h3
  have h4' : l.drop 3 = m.drop 3 := congrArg String.toList h4
  have : l = m := by
    calc l = l.take 3 ++ l.drop 3 := (List.take_append_drop 3 l).symm
    _ = m.take 3 ++ m.drop 3 := by rw [h3', h4']
    _ = m := List.take_append_drop 3 m
  exact congrArg String.mk this

lemma matchKey_eq_code_eq (p : String) (hp : strLen p = 7) (r : JapanPostalCode) :
    matchKey (strTake p 3) (strDrop p 3) r = decide (r.postal_code = p) := by
  by_cases he : r.postal_code = p
  · simp [matchKey, he, hp]
  · have hF : decide (r.postal_code = p) = false := by simp [he]
    rw [hF]
    simp only [matchKey, Bool.and_eq_false_iff, decide_eq_false_iff_not]
    by_cases h7 : strLen r.postal_code = 7
    · by_cases h3 : strTake r.postal_code 3 = strTake p 3
      · right
        intro h4
        exact he (key_eq_of_take_drop hp h7 h3 h4)
      · left; right; exact h3
    · left; left; exact h7


/-- A demonstration record with the given postal code and town name,
shaped like a row of the Japan Post registry. -/
def mkDemoRecord (pc : String) (town : String) : JapanPostalCode :=
  ⟨some "13120", some "176", pc, some "トウキョウト", some "ネリマク", some town,
   some "東京都", some "練馬区", some town, "0", "0", "0", "0", "0", "0"⟩

/-- Three records echoing the scenario of the specification: two
distinct codes under the 176 area and one under 100. -/
def demoData : List JapanPostalCode :=
  [mkDemoRecord "1760005" "旭丘", mkDemoRecord "1760006" "栄町",
   mkDemoRecord "1000001" "千代田"]

/-- C1: for every record sequence and every valid 7-digit postal code
`p`, the partitioned index holds, at first-level key `p[:3]` and
second-level key `p[3:]`, exactly the input records whose postal code
equals `p`, in input order; records whose postal code length is not 7
are counted as skipped (the partitioner is a total function, so no
record makes it raise). -/
lemma bucketOf_group (data : List JapanPostalCode) (p : String)
    (h7 : strLen p = 7) :
    bucketOf ( group_by_postal_code_prefix data).1 (strTake p 3) (strDrop p 3)
      = data.filter (fun r => decide (r.postal_code = p)) := by
  unfold group_by_postal_code_prefix
  rw [bucketOf_fold data ([], 0) (strTake p 3) (strDrop p 3)]
  have hnil : bucketOf ([] : Grouped) (strTake p 3) (strDrop p 3) = [] := rfl
  rw [hnil, List.nil_append]
  exact List.filter_congr (fun r _ => matchKey_eq_code_eq p h7 r)

theorem grouping_bucket_exact (data : List JapanPostalCode) (p : String)
    (h7 : strLen p = 7) (hd : p.toList.all Char.isDigit = true) :
    bucketOf ( group_by_postal_code_prefix data).1 (strTake p 3) (strDrop p 3)
        = data.filter (fun r => decide (r.postal_code = p))
      ∧ ( group_by_postal_code_prefix data).2
        = data.countP (fun r => decide (strLen r.postal_code ≠ 7)) := by
  refine ⟨bucketOf_group data p h7, ?_⟩
  unfold group_by_postal_code_prefix
  rw [skipped_fold data ([], 0)]
  simp

/-- Witness for C1 at the specification's own scenario data and the
code 1760005. -/
theorem grouping_bucket_exact_witness :
    strLen "1760005" = 7 ∧ ("1760005".toList.all Char.isDigit) = true ∧
      (bucketOf ( group_by_postal_code_prefix demoData).1
            (strTake "1760005" 3) (strDrop "1760005" 3)
          = demoData.filter (fun r => decide (r.postal_code = "1760005"))
        ∧ ( group_by_postal_code_prefix demoData).2
          = demoData.countP (fun r => decide (strLen r.postal_code ≠ 7))) :=
  ⟨by decide, by decide,
    grouping_bucket_exact demoData "1760005" (by decide) (by decide)⟩

/-- `all_prefix_records` as the grouped writers build it
(`scripts/formats/json_format.py` lines 86-89 and the analogous loops
of the other formats): the suffix buckets of one pre, concatenated in
suffix-dictionary insertion order. -/
def allUnder (g : Grouped) (pre : String) : List JapanPostalCode :=
  (((alookup g pre).getD []).map Prod.snd).flatten

/-- Whether a record's postal code is length 7 with the given first
three characters (the records that belong under one pre). -/
def matchPre (pre : String) (r : JapanPostalCode) : Bool :=
  decide (strLen r.postal_code = 7) && decide (strTake r.postal_code 3 = pre)

lemma join_insertSuffix (sd : SuffixDict) (suf : String) (r : JapanPostalCode) :
    List.Perm ((insertSuffix sd suf r).map Prod.snd).flatten
      ((sd.map Prod.snd).flatten ++ [r]) := by
  induction sd with
  | nil => simp [insertSuffix]
  | cons kv rest ih =>
    obtain ⟨k, v⟩ := kv
    by_cases h : suf = k
    · simp only [insertSuffix, if_pos h, List.map_cons, List.flatten_cons]
      rw [List.append_assoc, List.append_assoc]
      exact List.Perm.append_left v (List.perm_append_comm)
    · simp only [insertSuffix, if_neg h, List.map_cons, List.flatten_cons]
      rw [List.append_assoc]
      exact List.Perm.append_left v ih

lemma allUnder_insertGrouped (g : Grouped) (pre suf : String) (r : JapanPostalCode)
    (pre' : String) :
    List.Perm (allUnder (insertGrouped g pre suf r) pre')
      (if pre' = pre then allUnder g pre ++ [r] else allUnder g pre') := by
  unfold allUnder
  rw [alookup_insertGrouped]
  by_cases hp : pre' = pre
  · rw [if_pos hp, if_pos hp, Option.getD_some]
    exact join_insertSuffix _ suf r
  · rw [if_neg hp, if_neg hp]

lemma allUnder_fold (data : List JapanPostalCode) (acc : Grouped × Nat)
    (pre : String) :
    List.Perm (allUnder (data.foldl groupStep acc).1 pre)
      (allUnder acc.1 pre ++ data.filter (matchPre pre)) := by
  induction data generalizing acc with
  | nil => simp
  | cons r rest ih =>
    rw [List.foldl_cons]
    by_cases h7 : strLen r.postal_code = 7
    · have hstep : groupStep acc r =
          (insertGrouped acc.1 (strTake r.postal_code 3) (strDrop r.postal_code 3) r,
           acc.2) := by
        simp [groupStep, h7]
      rw [hstep]
      refine (ih _).trans ?_
      by_cases hq : pre = strTake r.postal_code 3
      · have hmk : matchPre pre r = true := by simp [matchPre, h7, hq.symm]
        rw [List.filter_cons_of_pos hmk]
        refine List.Perm.trans
          (List.Perm.append_right _
            ((allUnder_insertGrouped acc.1 _ _ r pre).trans
              (by rw [if_pos hq, ← hq]))) ?_
        rw [List.append_assoc]
        exact List.Perm.refl _
      · have hmk : matchPre pre r = false := by
          simp only [matchPre, Bool.and_eq_false_iff, decide_eq_false_iff_not]
          right
          exact fun h => hq h.symm
        rw [List.filter_cons_of_neg (by simp [hmk])]
        exact List.Perm.append_right _
          ((allUnder_insertGrouped acc.1 _ _ r pre).trans (by rw [if_neg hq]))
    · have hstep : groupStep acc r = (acc.1, acc.2 + 1) := by
        simp [groupStep, h7]
      have hmk : matchPre pre r = false := by simp [matchPre, h7]
      rw [hstep, List.filter_cons_of_neg (by simp [hmk])]
      exact ih _

/-- The key sequence of an association list (dict iteration order). -/
def keys {α : Type} (l : List (String × α)) : List String := l.map Prod.fst

lemma keys_cons {α : Type} (p : String × α) (t : List (String × α)) :
    keys (p :: t) = p.1 :: keys t := rfl

lemma mem_keys_iff_alookup {α : Type} (l : List (String × α)) (k : String) :
    k ∈ keys l ↔ ∃ v, alookup l k = some v := by
  induction l with
  | nil => simp [keys, alookup]
  | cons kv rest ih =>
    obtain ⟨k0, v0⟩ := kv
    by_cases h : k = k0
    · subst h
      simp [keys, alookup]
    · simp only [keys, List.map_cons, List.mem_cons, alookup, if_neg h]
      constructor
      · rintro (h0 | h0)
        · exact absurd h0 h
        · exact ih.1 h0
      · intro h0
        exact Or.inr (ih.2 h0)

lemma keys_insertSuffix (sd : SuffixDict) (suf : String) (r : JapanPostalCode) :
    keys (insertSuffix sd suf r) =
      if suf ∈ keys sd then keys sd else keys sd ++ [suf] := by
  induction sd with
  | nil => simp [insertSuffix, keys]
  | cons kv rest ih =>
    obtain ⟨k, v⟩ := kv
    by_cases h : suf = k
    · subst h
      simp [insertSuffix, keys]
    · have hmem : suf ∈ keys ((k, v) :: rest) ↔ suf ∈ keys rest := by
        simp [keys, List.mem_cons, h]
      have hins : insertSuffix ((k, v) :: rest) suf r
          = (k, v) :: insertSuffix rest suf r := by
        simp [insertSuffix, h]
      by_cases h2 : suf ∈ keys rest
      · rw [if_pos (hmem.2 h2), hins, keys_cons, keys_cons, ih, if_pos h2]
      · rw [if_neg (fun hc => h2 (hmem.1 hc)), hins, keys_cons, keys_cons, ih,
          if_neg h2, List.cons_append]

lemma keys_insertGrouped (g : Grouped) (pre suf : String) (r : JapanPostalCode) :
    keys (insertGrouped g pre suf r) =
      if pre ∈ keys g then keys g else keys g ++ [pre] := by
  induction g with
  | nil => simp [insertGrouped, keys]
  | cons kv rest ih =>
    obtain ⟨k, sd⟩ := kv
    by_cases h : pre = k
    · subst h
      simp [insertGrouped, keys]
    · have hmem : pre ∈ keys ((k, sd) :: rest) ↔ pre ∈ keys rest := by
        simp [keys, List.mem_cons, h]
      have hins : insertGrouped ((k, sd) :: rest) pre suf r
          = (k, sd) :: insertGrouped rest pre suf r := by
        simp [insertGrouped, h]
      by_cases h2 : pre ∈ keys rest
      · rw [if_pos (hmem.2 h2), hins, keys_cons, keys_cons, ih, if_pos h2]
      · rw [if_neg (fun hc => h2 (hmem.1 hc)), hins, keys_cons, keys_cons, ih,
          if_neg h2, List.cons_append]

/-- Well-formedness of the partitioned index: distinct top-level keys
and distinct suffix keys in every inner dictionary (true of Python
dicts by construction). -/
def GroupedWF (g : Grouped) : Prop :=
  (keys g).Nodup ∧ ∀ pre sd, alookup g pre = some sd → (keys sd).Nodup

lemma nodup_append_singleton {l : List String} {a : String}
    (hl : l.Nodup) (ha : a ∉ l) : (l ++ [a]).Nodup := by
  rw [List.nodup_append]
  refine ⟨hl, List.nodup_singleton a, ?_⟩
  intro x hx hx'
  exact ha ((List.mem_singleton.1 hx') ▸ hx)

lemma wf_insertGrouped {g : Grouped} (pre suf : String) (r : JapanPostalCode)
    (h : GroupedWF g) : GroupedWF (insertGrouped g pre suf r) := by
  obtain ⟨hk, hin⟩ := h
  constructor
  · rw [keys_insertGrouped]
    by_cases hm : pre ∈ keys g
    · rwa [if_pos hm]
    · rw [if_neg hm]
      exact nodup_append_singleton hk hm
  · intro pre' sd' hl
    rw [alookup_insertGrouped] at hl
    by_cases hp : pre' = pre
    · rw [if_pos hp] at hl
      obtain rfl : insertSuffix ((alookup g pre).getD []) suf r = sd' :=
        Option.some.inj hl
      have hsdnd : (keys ((alookup g pre).getD [])).Nodup := by
        cases hlk : alookup g pre with
        | none => simp [keys]
        | some sd0 => simpa using hin pre sd0 hlk
      rw [keys_insertSuffix]
      by_cases hm : suf ∈ keys ((alookup g pre).getD [])
      · rwa [if_pos hm]
      · rw [if_neg hm]
        exact nodup_append_singleton hsdnd hm
    · rw [if_neg hp] at hl
      exact hin pre' sd' hl

lemma wf_fold (data : List JapanPostalCode) (acc : Grouped × Nat)
    (h : GroupedWF acc.1) : GroupedWF (data.foldl groupStep acc).1 := by
  induction data generalizing acc with
  | nil => exact h
  | cons r rest ih =>
    rw [List.foldl_cons]
    by_cases h7 : strLen r.postal_code = 7
    · have hstep : groupStep acc r =
          (insertGrouped acc.1 (strTake r.postal_code 3) (strDrop r.postal_code 3) r,
           acc.2) := by
        simp [groupStep, h7]
      rw [hstep]
      exact ih _ (wf_insertGrouped _ _ r h)
    · have hstep : groupStep acc r = (acc.1, acc.2 + 1) := by
        simp [groupStep, h7]
      rw [hstep]
      exact ih _ h

lemma wf_group (data : List JapanPostalCode) :
    GroupedWF ( group_by_postal_code_prefix data).1 :=
  wf_fold data ([], 0) ⟨List.nodup_nil, fun _ _ h => by cases h⟩

lemma alookup_mem {α : Type} {l : List (String × α)} {k : String} {v : α}
    (h : alookup l k = some v) : (k, v) ∈ l := by
  induction l with
  | nil => cases h
  | cons kv rest ih =>
    obtain ⟨k0, v0⟩ := kv
    by_cases hk : k = k0
    · subst hk
      rw [alookup, if_pos rfl] at h
      obtain rfl := Option.some.inj h
      exact List.mem_cons_self _ _
    · rw [alookup, if_neg hk] at h
      exact List.mem_cons_of_mem _ (ih h)

lemma mem_alookup_of_nodup {α : Type} {l : List (String × α)} {k : String} {v : α}
    (hnd : (keys l).Nodup) (hm : (k, v) ∈ l) : alookup l k = some v := by
  induction l with
  | nil => cases hm
  | cons kv rest ih =>
    obtain ⟨k0, v0⟩ := kv
    rw [keys_cons, List.nodup_cons] at hnd
    rcases List.mem_cons.1 hm with he | hr
    · cases he
      rw [alookup, if_pos rfl]
    · by_cases hk : k = k0
      · subst hk
        exact absurd (by simpa [keys] using List.mem_map_of_mem Prod.fst hr) hnd.1
      · rw [alookup, if_neg hk]
        exact ih hnd.2 hr

/-- A destination path of a grouped write rooted at the datasets
directory: either the per-pre aggregate file `<pre>.<ext>` or the
per-suffix leaf file `<pre>/<suf>.<ext>`. -/
inductive OutPath where
  | preFile (pre : String)
  | sufFile (pre suf : String)
deriving DecidableEq, Repr

/-- The first path component (the pre) of a destination path. -/
def pathPre : OutPath → String
  | .preFile a => a
  | .sufFile a _ => a

/-- The file writes one pre of the index contributes to a grouped
write: the aggregate file with `all_prefix_records`, then one leaf
file per suffix bucket. -/
def planBlock (e : String × SuffixDict) : List (OutPath × List JapanPostalCode) :=
  (OutPath.preFile e.1, (e.2.map Prod.snd).flatten) ::
    e.2.map (fun s => (OutPath.sufFile e.1 s.1, s.2))

/-- The file-write plan of a grouped writer (`save_grouped_json` in
`scripts/formats/json_format.py` lines 79-104; the CSV, XML, NDJSON,
TOML, MessagePack, BSON and Parquet variants build the same plan):
walking the prefixes in index order, write `<pre>.<ext>` with the
concatenated suffix buckets of that pre, and `<pre>/<suf>.<ext>` with
each single bucket.  Each pair is one file write (path, records
serialized to it). -/
def save_grouped_plan (g : Grouped) : List (OutPath × List JapanPostalCode) :=
  (g.map planBlock).flatten

lemma mem_planBlock_pathPre {e : String × SuffixDict}
    {x : OutPath × List JapanPostalCode} (h : x ∈ planBlock e) :
    pathPre x.1 = e.1 := by
  rcases List.mem_cons.1 h with he | hr
  · rw [he]; rfl
  · obtain ⟨s, _, rfl⟩ := List.mem_map.1 hr
    rfl

lemma planBlock_paths_nodup {e : String × SuffixDict}
    (hsd : (keys e.2).Nodup) : ((planBlock e).map Prod.fst).Nodup := by
  unfold planBlock
  rw [List.map_cons, List.map_map]
  rw [List.nodup_cons]
  constructor
  · intro hmem
    obtain ⟨s, _, hs⟩ := List.mem_map.1 hmem
    cases hs
  · have : (fun s : String × List JapanPostalCode =>
        (Prod.fst ((OutPath.sufFile e.1 s.1, s.2)))) =
        (fun s : String × List JapanPostalCode => OutPath.sufFile e.1 s.1) := rfl
    have hmap : e.2.map (fun s => OutPath.sufFile e.1 s.1)
        = (keys e.2).map (OutPath.sufFile e.1) := by
      unfold keys
      rw [List.map_map]
      rfl
    show (e.2.map fun s => OutPath.sufFile e.1 s.1).Nodup
    rw [hmap]
    exact hsd.map (fun a b hab => by cases hab; rfl)

lemma plan_paths_nodup {g : Grouped} (hwf : GroupedWF g) :
    ((save_grouped_plan g).map Prod.fst).Nodup := by
  unfold save_grouped_plan
  rw [List.map_flatten, List.map_map]
  rw [List.nodup_flatten]
  constructor
  · intro bl hbl
    obtain ⟨e, he, rfl⟩ := List.mem_map.1 hbl
    have hsome : alookup g e.1 = some e.2 :=
      mem_alookup_of_nodup hwf.1 (by rw [Prod.mk.eta]; exact he)
    exact planBlock_paths_nodup (hwf.2 e.1 e.2 hsome)
  · have hpair : g.Pairwise (fun a b => a.1 ≠ b.1) := by
      have h := hwf.1
      unfold keys at h
      exact List.pairwise_map.1 h
    rw [List.pairwise_map]
    refine hpair.imp ?_
    intro a b hne x hxa hxb
    obtain ⟨y, hy, rfl⟩ := List.mem_map.1 hxa
    obtain ⟨z, hz, hzx⟩ := List.mem_map.1 hxb
    apply hne
    calc a.1 = pathPre y.1 := (mem_planBlock_pathPre hy).symm
    _ = pathPre z.1 := by rw [hzx]
    _ = b.1 := mem_planBlock_pathPre hz

lemma sufFile_mem_plan {g : Grouped} {pre suf : String} {sd : SuffixDict}
    {rs : List JapanPostalCode} (h1 : alookup g pre = some sd)
    (h2 : alookup sd suf = some rs) :
    (OutPath.sufFile pre suf, rs) ∈ save_grouped_plan g := by
  unfold save_grouped_plan
  refine List.mem_flatten.2 ⟨planBlock (pre, sd), List.mem_map_of_mem _ (alookup_mem h1), ?_⟩
  unfold planBlock
  exact List.mem_cons_of_mem _ (List.mem_map_of_mem _ (alookup_mem h2))

lemma preFile_content {g : Grouped} (hwf : GroupedWF g) {pre : String}
    {l : List JapanPostalCode}
    (h : (OutPath.preFile pre, l) ∈ save_grouped_plan g) : l = allUnder g pre := by
  unfold save_grouped_plan at h
  obtain ⟨bl, hbl, hin⟩ := List.mem_flatten.1 h
  obtain ⟨e, he, rfl⟩ := List.mem_map.1 hbl
  rcases List.mem_cons.1 hin with hh | ht
  · have h1 : OutPath.preFile e.1 = OutPath.preFile pre :=
      congrArg Prod.fst hh.symm
    have h2 : l = (e.2.map Prod.snd).flatten := congrArg Prod.snd hh
    have hkey : e.1 = pre := by cases h1; rfl
    have hsome : alookup g pre = some e.2 := by
      rw [← hkey]
      exact mem_alookup_of_nodup hwf.1 (by rw [Prod.mk.eta]; exact he)
    unfold allUnder
    rw [hsome, Option.getD_some, h2]
  · obtain ⟨s, _, hs⟩ := List.mem_map.1 ht
    have : OutPath.sufFile e.1 s.1 = OutPath.preFile pre := congrArg Prod.fst hs
    cases this

/-- The scenario-style data with records of two different suffixes of
the same pre interleaved: the middle record's suffix differs from its
neighbours'. -/
def demoDataInterleaved : List JapanPostalCode :=
  [mkDemoRecord "1760005" "旭丘", mkDemoRecord "1760006" "栄町",
   mkDemoRecord "1760005" "小竹町"]

/-- C2, counterexample: on input records r1 (1760005), r2 (1760006),
r3 (1760005), the aggregate file `176.<ext>` of a grouped write holds
the concatenation of the two suffix buckets, [r1, r3, r2], which is
not the original input order [r1, r2, r3]; the paths of the plan are
distinct, so this really is the one content written to `176.<ext>`. -/
theorem grouped_write_interleaved_order_counterexample :
    (OutPath.preFile "176",
        [mkDemoRecord "1760005" "旭丘", mkDemoRecord "1760005" "小竹町",
         mkDemoRecord "1760006" "栄町"])
      ∈ save_grouped_plan ( group_by_postal_code_prefix demoDataInterleaved).1
    ∧ ((save_grouped_plan ( group_by_postal_code_prefix demoDataInterleaved).1).map
        Prod.fst).Nodup
    ∧ [mkDemoRecord "1760005" "旭丘", mkDemoRecord "1760005" "小竹町",
       mkDemoRecord "1760006" "栄町"]
      ≠ demoDataInterleaved.filter (matchPre "176") := by
  refine ⟨by decide, by decide, by decide⟩

/-- C2, amended: for every partitioned index built from `data` and
every length-7 code `p`, the grouped-write plan writes each distinct
path once; the leaf file `(p[:3])/(p[3:]).<ext>` receives exactly the
records whose postal code is `p`, in source insertion order; and the
aggregate file `(p[:3]).<ext>` receives the union (a permutation, not
necessarily the source order) of all records under that pre — the
concatenation of its suffix buckets in first-appearance order. -/
theorem save_grouped_plan_spec (data : List JapanPostalCode) (p : String)
    (h7 : strLen p = 7) :
    ((save_grouped_plan ( group_by_postal_code_prefix data).1).map Prod.fst).Nodup
    ∧ (data.filter (fun r => decide (r.postal_code = p)) ≠ [] →
        (OutPath.sufFile (strTake p 3) (strDrop p 3),
            data.filter (fun r => decide (r.postal_code = p)))
          ∈ save_grouped_plan ( group_by_postal_code_prefix data).1)
    ∧ (∀ l, (OutPath.preFile (strTake p 3), l)
          ∈ save_grouped_plan ( group_by_postal_code_prefix data).1 →
        List.Perm l (data.filter (matchPre (strTake p 3)))) := by
  refine ⟨plan_paths_nodup (wf_group data), ?_, ?_⟩
  · intro hne
    have hb := bucketOf_group data p h7
    unfold bucketOf at hb
    cases hlk : alookup ( group_by_postal_code_prefix data).1 (strTake p 3) with
    | none =>
      rw [hlk] at hb
      exact absurd hb.symm (by simpa [bucket1, alookup] using hne)
    | some sd =>
      rw [hlk, Option.getD_some] at hb
      unfold bucket1 at hb
      cases hlk2 : alookup sd (strDrop p 3) with
      | none =>
        rw [hlk2] at hb
        exact absurd hb.symm (by simpa using hne)
      | some rs =>
        rw [hlk2, Option.getD_some] at hb
        rw [← hb]
        exact sufFile_mem_plan hlk hlk2
  · intro l hl
    rw [preFile_content (wf_group data) hl]
    have hperm := allUnder_fold data ([], 0) (strTake p 3)
    have hnil : allUnder ([] : Grouped) (strTake p 3) = [] := rfl
    rw [show (data.foldl groupStep ([], 0)) = group_by_postal_code_prefix data
      from rfl, hnil, List.nil_append] at hperm
    exact hperm

/-- Witness for C2's amended statement at the interleaved demo data
and the code 1760005. -/
theorem save_grouped_plan_spec_witness :
    strLen "1760005" = 7 ∧
      (((save_grouped_plan
            ( group_by_postal_code_prefix demoDataInterleaved).1).map Prod.fst).Nodup
      ∧ (demoDataInterleaved.filter (fun r => decide (r.postal_code = "1760005")) ≠ [] →
          (OutPath.sufFile (strTake "1760005" 3) (strDrop "1760005" 3),
              demoDataInterleaved.filter (fun r => decide (r.postal_code = "1760005")))
            ∈ save_grouped_plan ( group_by_postal_code_prefix demoDataInterleaved).1)
      ∧ (∀ l, (OutPath.preFile (strTake "1760005" 3), l)
            ∈ save_grouped_plan ( group_by_postal_code_prefix demoDataInterleaved).1 →
          List.Perm l (demoDataInterleaved.filter (matchPre (strTake "1760005" 3))))) :=
  ⟨by decide, save_grouped_plan_spec demoDataInterleaved "1760005" (by decide)⟩

/-- `record.model_dump()`: the record's fields as name/value pairs in
declaration order; absent optional fields dump as `None`. -/
def model_dump (r : JapanPostalCode) : List (String × Option String) :=
  [("local_government_code", r.local_government_code),
   ("old_postal_code", r.old_postal_code),
   ("postal_code", some r.postal_code),
   ("prefecture_name_kana", r.prefecture_name_kana),
   ("city_name_kana", r.city_name_kana),
   ("town_name_kana", r.town_name_kana),
   ("prefecture_name", r.prefecture_name),
   ("city_name", r.city_name),
   ("town_name", r.town_name),
   ("multiple_postal_codes_per_town", some r.multiple_postal_codes_per_town),
   ("koaza_numbering", some r.koaza_numbering),
   ("has_chome", some r.has_chome),
   ("multiple_towns_per_postal_code", some r.multiple_towns_per_postal_code),
   ("update_status", some r.update_status),
   ("change_reason", some r.change_reason)]

/-- The JSON values this program serializes: an object of string/null
fields (one dumped record) or an array of such objects. -/
inductive Json where
  | obj (fields : List (String × Option String))
  | arr (objs : List (List (String × Option String)))
deriving DecidableEq, Repr

/-- The payload handed to the single-file JSON writer for a suffix
bucket (`scripts/formats/json_format.py` line 102): the list of dumped
dicts when the bucket has more than one record, otherwise the bare
first dict (`suffix_data[0]`); the writer then dumps whatever it
receives, with no re-wrapping.  Buckets are never empty. -/
def jsonGroupedSuffixPayload (rs : List JapanPostalCode) : Json :=
  let suffix_data := rs.map model_dump
  if suffix_data.length > 1 then Json.arr suffix_data else Json.obj suffix_data.head!

/-- `JapanPostalCode.model_fields.keys()`: the CSV header row. -/
def fieldnames : List String :=
  ["local_government_code", "old_postal_code", "postal_code",
   "prefecture_name_kana", "city_name_kana", "town_name_kana",
   "prefecture_name", "city_name", "town_name",
   "multiple_postal_codes_per_town", "koaza_numbering", "has_chome",
   "multiple_towns_per_postal_code", "update_status", "change_reason"]

/-- A cell as `csv.DictWriter` writes it: `None` becomes the empty
string. -/
def csvCell (v : Option String) : String := v.getD ""

/-- One CSV data row from a dumped record, in header order. -/
def csvRowOf (dump : List (String × Option String)) : List String :=
  dump.map (fun kv => csvCell kv.2)

/-- The duck-typed argument of `save_single_csv_file`
(`scripts/formats/csv_format.py` line 93): a list of dumped dicts, or
one bare dict when the caller unwrapped a singleton bucket. -/
inductive CsvPayload where
  | many (rows : List (List (String × Option String)))
  | one (row : List (String × Option String))
deriving DecidableEq, Repr

/-- The caller's side of the CSV grouped write for one suffix bucket
(`csv_format.py` line 93): pass the dict list when longer than one,
else the bare first dict. -/
def csvGroupedSuffixPayload (rs : List JapanPostalCode) : CsvPayload :=
  let suffix_data := rs.map model_dump
  if suffix_data.length > 1 then CsvPayload.many suffix_data
  else CsvPayload.one suffix_data.head!

/-- `save_single_csv_file` (`csv_format.py` lines 58-70): write the
header row, then the data rows; a bare dict argument is written with
`writerow`, producing the same single data row a one-element list
would. -/
def save_single_csv_file (p : CsvPayload) : List (List String) :=
  fieldnames ::
    (match p with
     | CsvPayload.many rows => rows.map csvRowOf
     | CsvPayload.one row => [csvRowOf row])

/-- The duck-typed records argument of the XML, NDJSON, TOML,
MessagePack, BSON and Parquet single-file writers: a record list, or
one bare record when the caller unwrapped a singleton bucket. -/
inductive RecordsArg where
  | list (rs : List JapanPostalCode)
  | single (r : JapanPostalCode)
deriving DecidableEq, Repr

/-- The caller's side of those grouped writes for one suffix bucket
(`xml_format.py` line 94 etc.): pass the list when longer than one,
else the bare first record. -/
def groupedSuffixArg (rs : List JapanPostalCode) : RecordsArg :=
  if rs.length > 1 then RecordsArg.list rs else RecordsArg.single rs.head!

/-- One `record` element of the XML document: one child element per
field, whose text is `str(value) if value else ''` (absent and empty
both render as the empty string). -/
def xmlRecordElem (r : JapanPostalCode) : List (String × String) :=
  (model_dump r).map (fun kv => (kv.1, kv.2.getD ""))

/-- `save_single_xml_file` (`xml_format.py` lines 58-74): normalize a
bare record back into a one-element list, then emit the
`postal_codes` document with one `record` element per record. -/
def save_single_xml_file (a : RecordsArg) : List (List (String × String)) :=
  (match a with
   | RecordsArg.list rs => rs
   | RecordsArg.single r => [r]).map xmlRecordElem

/-- The terminal state of one sink invocation: the coroutine returned
normally, returned early because its encoding library is missing
(reported, no output), or ended the whole process via `sys.exit` or an
uncaught exception. -/
inductive SinkOutcome where
  | completed
  | skipped
  | exitProcess (code : Nat)
deriving DecidableEq, Repr

/-- The `except Exception: print(...); sys.exit(1)` handler shared by
every whole-dataset sink (`scripts/main.py` and
`scripts/formats/*.py`): a successful write completes; a raised error
is caught, a message is printed, and the handler terminates the
process with exit status 1. -/
def sinkOutcome : Except String Unit → SinkOutcome
  | .ok _ => SinkOutcome.completed
  | .error _ => SinkOutcome.exitProcess 1

/-- The exit status of `asyncio.run(main())` given the sink outcomes
in gather order: the first sink that ends the process determines the
status (its `SystemExit` propagates through `asyncio.gather` and
cancels the still-pending siblings); otherwise the run exits 0. -/
def gatherExitCode (outcomes : List SinkOutcome) : Nat :=
  match outcomes.find? (fun o => match o with
    | SinkOutcome.exitProcess _ => true
    | _ => false) with
  | some (SinkOutcome.exitProcess c) => c
  | _ => 0

namespace Main

/-- `save_json` of `scripts/main.py` (and identically
`scripts/formats/json_format.py` lines 42-45 for error handling): the
outcome is determined by the offloaded encode-and-write operation,
whose result the argument models. -/
def save_json (w : Except String Unit) : SinkOutcome := sinkOutcome w

/-- `save_yaml` of `scripts/main.py`: same try/except shape. -/
def save_yaml (w : Except String Unit) : SinkOutcome := sinkOutcome w

/-- `save_csv` of `scripts/main.py` (and `csv_format.py` lines 21-23):
an empty record list returns early, before any file operation. -/
def save_csv (data : List JapanPostalCode) (w : Except String Unit) : SinkOutcome :=
  if data.isEmpty then SinkOutcome.completed else sinkOutcome w

/-- `save_xml` of `scripts/main.py`: same try/except shape. -/
def save_xml (w : Except String Unit) : SinkOutcome := sinkOutcome w

/-- `save_parquet` of `scripts/main.py` (and `parquet_format.py` lines
23-25): when pyarrow is missing the function prints and returns before
the try block, skipping the format without raising or exiting. -/
def save_parquet (pyarrowAvailable : Bool) (w : Except String Unit) : SinkOutcome :=
  if pyarrowAvailable then sinkOutcome w else SinkOutcome.skipped

/-- `save_msgpack` of `scripts/main.py`: returns early when the
msgpack library is missing. -/
def save_msgpack (msgpackAvailable : Bool) (w : Except String Unit) : SinkOutcome :=
  if msgpackAvailable then sinkOutcome w else SinkOutcome.skipped

/-- `save_ndjson` of `scripts/main.py`: same try/except shape. -/
def save_ndjson (w : Except String Unit) : SinkOutcome := sinkOutcome w

/-- `save_toml` of `scripts/main.py`: returns early when tomli-w is
missing. -/
def save_toml (tomliwAvailable : Bool) (w : Except String Unit) : SinkOutcome :=
  if tomliwAvailable then sinkOutcome w else SinkOutcome.skipped

/-- `save_feather` of `scripts/main.py`: feather is written through
pyarrow as well, so the same pyarrow availability flag gates it. -/
def save_feather (pyarrowAvailable : Bool) (w : Except String Unit) : SinkOutcome :=
  if pyarrowAvailable then sinkOutcome w else SinkOutcome.skipped

/-- `save_bson` of `scripts/main.py`: returns early when the bson
library is missing. -/
def save_bson (bsonAvailable : Bool) (w : Except String Unit) : SinkOutcome :=
  if bsonAvailable then sinkOutcome w else SinkOutcome.skipped

/-- `save_sqlite` of `scripts/main.py`: same try/except shape. -/
def save_sqlite (w : Except String Unit) : SinkOutcome := sinkOutcome w

/-- One run's external circumstances: which optional encoding
libraries are importable, the record list, and the result each sink's
underlying file write would have. -/
structure RunEnv where
  data : List JapanPostalCode
  pyarrowAvailable : Bool
  msgpackAvailable : Bool
  tomliwAvailable : Bool
  bsonAvailable : Bool
  jsonWrite : Except String Unit
  yamlWrite : Except String Unit
  csvWrite : Except String Unit
  xmlWrite : Except String Unit
  parquetWrite : Except String Unit
  msgpackWrite : Except String Unit
  ndjsonWrite : Except String Unit
  tomlWrite : Except String Unit
  featherWrite : Except String Unit
  bsonWrite : Except String Unit
  sqliteWrite : Except String Unit
deriving Repr

/-- The sink outcomes of `main()`'s `asyncio.gather` call
(`scripts/main.py` lines 443-455), in the source's gather order. -/
def mainOutcomes (env : RunEnv) : List SinkOutcome :=
  [save_json env.jsonWrite,
   save_yaml env.yamlWrite,
   save_csv env.data env.csvWrite,
   save_xml env.xmlWrite,
   save_parquet env.pyarrowAvailable env.parquetWrite,
   save_msgpack env.msgpackAvailable env.msgpackWrite,
   save_ndjson env.ndjsonWrite,
   save_toml env.tomliwAvailable env.tomlWrite,
   save_feather env.pyarrowAvailable env.featherWrite,
   save_bson env.bsonAvailable env.bsonWrite,
   save_sqlite env.sqliteWrite]

/-- The process exit status of one run of `main()`. -/
def mainExitCode (env : RunEnv) : Nat := gatherExitCode (mainOutcomes env)

end Main

namespace ParquetFormat

/-- `save_grouped_parquet` of `scripts/formats/parquet_format.py`
(lines 51-55 for the guard): with pyarrow missing it prints and
returns, skipping the grouped files; otherwise the gathered file
writes run with no surrounding except handler, so a raised error ends
the process as an uncaught exception (status 1). -/
def save_grouped_parquet (pyarrowAvailable : Bool) (w : Except String Unit) :
    SinkOutcome :=
  if pyarrowAvailable then sinkOutcome w else SinkOutcome.skipped

end ParquetFormat

namespace CsvFormat

/-- `save_csv` of `scripts/formats/csv_format.py` (lines 12-42) as
outcome plus written file content (header row and data rows; `none`
when no file is created): the empty-data early return happens before
any file operation, so nothing is written for an empty record list. -/
def save_csv (data : List JapanPostalCode) (w : Except String Unit) :
    SinkOutcome × Option (List (List String)) :=
  if data.isEmpty then (SinkOutcome.completed, none)
  else
    match w with
    | .ok _ =>
      (SinkOutcome.completed,
       some (fieldnames :: data.map (fun r => csvRowOf (model_dump r))))
    | .error _ => (SinkOutcome.exitProcess 1, none)

end CsvFormat

namespace JsonFormat

/-- `save_json` of `scripts/formats/json_format.py` (lines 18-45) as
outcome plus written file content: the whole dataset is dumped as one
JSON array, also when empty. -/
def save_json (data : List JapanPostalCode) (w : Except String Unit) :
    SinkOutcome × Option Json :=
  match w with
  | .ok _ => (SinkOutcome.completed, some (Json.arr (data.map model_dump)))
  | .error _ => (SinkOutcome.exitProcess 1, none)

end JsonFormat

namespace XmlFormat

/-- `save_xml` of `scripts/formats/xml_format.py` (lines 14-44) as
outcome plus written document: a `postal_codes` document with one
`record` element per record, empty when there are no records. -/
def save_xml (data : List JapanPostalCode) (w : Except String Unit) :
    SinkOutcome × Option (List (List (String × String))) :=
  match w with
  | .ok _ => (SinkOutcome.completed, some (data.map xmlRecordElem))
  | .error _ => (SinkOutcome.exitProcess 1, none)

end XmlFormat

/-- A field as `scripts/main.py`'s reader prepares it (lines 114-130):
`row[k].strip()`, passed even when empty. -/
def mainField (s : String) : Option String := some (pyStrip s)

/-- A field as `scripts/utils.py`'s readers prepare it (lines 128-145
and 192-209): `row[k].strip() if row[k] else None`, so an empty cell
becomes an absent value. -/
def utilsField (s : String) : Option String :=
  if s = "" then none else some (pyStrip s)

/-- One loop iteration's record construction from a parsed CSV line in
`scripts/main.py`: a row with fewer than 15 columns raises IndexError
inside the loop body (caught by the per-row handler), otherwise the
fifteen stripped columns are passed to the constructor. -/
def mainRowToRecord (row : List String) : Except String JapanPostalCode :=
  if row.length < 15 then .error "IndexError: list index out of range"
  else
    mkJapanPostalCode
      ⟨mainField (row.getD 0 ""), mainField (row.getD 1 ""),
       mainField (row.getD 2 ""), mainField (row.getD 3 ""),
       mainField (row.getD 4 ""), mainField (row.getD 5 ""),
       mainField (row.getD 6 ""), mainField (row.getD 7 ""),
       mainField (row.getD 8 ""), mainField (row.getD 9 ""),
       mainField (row.getD 10 ""), mainField (row.getD 11 ""),
       mainField (row.getD 12 ""), mainField (row.getD 13 ""),
       mainField (row.getD 14 "")⟩

/-- One loop iteration's record construction in `scripts/utils.py`
(both the pandas and the fallback path pass empty cells as `None`). -/
def utilsRowToRecord (row : List String) : Except String JapanPostalCode :=
  if row.length < 15 then .error "IndexError: list index out of range"
  else
    mkJapanPostalCode
      ⟨utilsField (row.getD 0 ""), utilsField (row.getD 1 ""),
       utilsField (row.getD 2 ""), utilsField (row.getD 3 ""),
       utilsField (row.getD 4 ""), utilsField (row.getD 5 ""),
       utilsField (row.getD 6 ""), utilsField (row.getD 7 ""),
       utilsField (row.getD 8 ""), utilsField (row.getD 9 ""),
       utilsField (row.getD 10 ""), utilsField (row.getD 11 ""),
       utilsField (row.getD 12 ""), utilsField (row.getD 13 ""),
       utilsField (row.getD 14 "")⟩

/-- The shared reading loop: try to build a record from each row; on
success append it to `data`, on failure record the error (modelled as
a count) and continue with the next row. -/
def readLoop (toRec : List String → Except String JapanPostalCode)
    (rows : List (List String)) : List JapanPostalCode × Nat :=
  rows.foldl
    (fun acc row =>
      match toRec row with
      | .ok rec => (acc.1 ++ [rec], acc.2)
      | .error _ => (acc.1, acc.2 + 1))
    ([], 0)

namespace MainReader

/-- `read_csv_data` of `scripts/main.py` (lines 100-143): after the
loop it prints the count, and then only the error-free path executes
`return data` — when any row failed, the function falls off the end
of the `if`/`else` and implicitly returns `None`. -/
def read_csv_data (rows : List (List String)) : Option (List JapanPostalCode) :=
  let res := readLoop mainRowToRecord rows
  if res.2 > 0 then none else some res.1

end MainReader

namespace UtilsReader

/-- `read_csv_data` of `scripts/utils.py` (lines 81-169, and its
fallback `_read_csv_data_slow`): the collected records are returned
unconditionally, together with the error count that is printed as a
summary (counts and the first ten messages). -/
def read_csv_data (rows : List (List String)) : List JapanPostalCode × Nat :=
  readLoop utilsRowToRecord rows

end UtilsReader

/-- A well-formed CSV line of the registry. -/
def goodRow : List String :=
  ["13120", "176  ", "1760005", "トウキョウト", "ネリマク", "アサヒガオカ",
   "東京都", "練馬区", "旭丘", "0", "0", "0", "0", "0", "0"]

/-- A malformed CSV line: the postal code has length 3. -/
def badRow : List String :=
  ["13120", "176", "123", "トウキョウト", "ネリマク", "アサヒガオカ",
   "東京都", "練馬区", "旭丘", "0", "0", "0", "0", "0", "0"]

/-- The record `goodRow` parses to. -/
def goodRecord : JapanPostalCode :=
  ⟨some "13120", some "176", "1760005", some "トウキョウト", some "ネリマク",
   some "アサヒガオカ", some "東京都", some "練馬区", some "旭丘",
   "0", "0", "0", "0", "0", "0"⟩

/-- The scheduler state of one grouped write's bounded-concurrency
execution: file-write tasks not yet admitted by the semaphore (in
creation order), tasks currently holding a slot, the admission
history, and the finished tasks. -/
structure SemState where
  pending : List OutPath
  running : List OutPath
  admitted : List OutPath
  done : List OutPath
deriving DecidableEq, Repr

/-- One step of the cooperative scheduler around
`asyncio.Semaphore(cap)`: `acquire` models `async with semaphore`
acquiring a slot, which succeeds only while fewer than `cap` tasks
hold one and wakes waiters in order, so the earliest pending task
enters; `finish` models one write completing and releasing its slot
(writes may finish in any order). -/
inductive SemStep (cap : Nat) : SemState → SemState → Prop
  | acquire (t : OutPath) (rest run adm dn : List OutPath)
      (h : run.length < cap) :
      SemStep cap ⟨t :: rest, run, adm, dn⟩ ⟨rest, run ++ [t], adm ++ [t], dn⟩
  | finish (pend run1 run2 adm dn : List OutPath) (t : OutPath) :
      SemStep cap ⟨pend, run1 ++ t :: run2, adm, dn⟩
        ⟨pend, run1 ++ run2, adm, dn ++ [t]⟩

/-- The scheduler's initial state: all file-write tasks of the grouped
write created, none yet admitted. -/
def semInit (tasks : List OutPath) : SemState := ⟨tasks, [], [], []⟩

/-- The limiter value `asyncio.Semaphore(100)` shared by the grouped
writers of the text and structured formats (`json_format.py` line 51,
`csv_format.py` 47, `xml_format.py` 49, `ndjson_format.py` 55,
`toml_format.py` 61, `msgpack_format.py` 54, `bson_format.py` 55). -/
def textFormatSemaphoreLimit : Nat := 100

/-- The limiter value `asyncio.Semaphore(50)` of the Parquet grouped
writer (`parquet_format.py` line 58, halved for memory). -/
def parquetSemaphoreLimit : Nat := 50

lemma sem_invariant {cap : Nat} {tasks : List OutPath} {s : SemState}
    (h : Relation.ReflTransGen (SemStep cap) (semInit tasks) s) :
    s.running.length ≤ cap ∧ s.admitted ++ s.pending = tasks
      ∧ List.Perm (s.done ++ s.running) s.admitted := by
  induction h with
  | refl =>
    exact ⟨Nat.zero_le cap, rfl, List.Perm.refl _⟩
  | tail hst hstep ih =>
    cases hstep with
    | acquire t rest run adm dn hlt =>
      obtain ⟨ihc, ihp, ihm⟩ := ih
      refine ⟨?_, ?_, ?_⟩
      · simpa using hlt
      · rw [show (⟨rest, run ++ [t], adm ++ [t], dn⟩ : SemState).admitted
            = adm ++ [t] from rfl]
        rw [show (⟨rest, run ++ [t], adm ++ [t], dn⟩ : SemState).pending
            = rest from rfl]
        rw [List.append_assoc]
        exact ihp
      · show List.Perm (dn ++ (run ++ [t])) (adm ++ [t])
        rw [← List.append_assoc]
        exact ihm.append_right [t]
    | finish pend run1 run2 adm dn t =>
      obtain ⟨ihc, ihp, ihm⟩ := ih
      refine ⟨?_, ihp, ?_⟩
      · show (run1 ++ run2).length ≤ cap
        have hlen : (run1 ++ run2).length ≤ (run1 ++ t :: run2).length := by
          simp [List.length_append]
        exact hlen.trans ihc
      · show List.Perm ((dn ++ [t]) ++ (run1 ++ run2)) adm
        refine List.Perm.trans ?_ ihm
        rw [List.append_assoc]
        refine List.Perm.append_left dn ?_
        simp only [List.singleton_append]
        exact List.perm_middle.symm

/-- Python's `str()` applied to a dumped field value when the SQLite
sink builds a row: `str(None)` is the four-character string None. -/
def pyStr : Option String → String
  | none => "None"
  | some s => s

/-- The row of TEXT values `_save_sqlite` binds for one record
(`scripts/formats/sqlite_format.py` lines 38-44, identical in
`scripts/main.py`): `str(record.get(field, ''))` over the dumped dict
in field order. -/
def sqliteRowOf (r : JapanPostalCode) : List String :=
  (model_dump r).map (fun kv => pyStr kv.2)

/-- Decoding one stored record back out of the database: selecting the
TEXT columns returns exactly the stored strings, so every field comes
back as a present string value. -/
def sqliteDecodedFields (r : JapanPostalCode) : List (String × Option String) :=
  (model_dump r).map (fun kv => (kv.1, some (pyStr kv.2)))

/-- A record whose optional `old_postal_code` is absent. -/
def demoRecordNoOld : JapanPostalCode :=
  ⟨some "13120", none, "1760005", some "トウキョウト", some "ネリマク",
   some "アサヒガオカ", some "東京都", some "練馬区", some "旭丘",
   "0", "0", "0", "0", "0", "0"⟩

/-- A raw row whose postal code consists of seven fullwidth digits
(U+FF11..U+FF17), which Python's `str.isdigit` accepts. -/
def demoRawFullwidth : RawRow :=
  ⟨some "13120", some "176", some "１２３４５６７", some "トウキョウト", some "ネリマク",
   some "アサヒガオカ", some "東京都", some "練馬区", some "旭丘",
   some "0", some "0", some "0", some "0", some "0", some "0"⟩

/-- A run in which the JSON sink's file write raises while every other
sink's write would succeed and all libraries are importable. -/
def demoEnvJsonFail : Main.RunEnv :=
  ⟨[goodRecord], true, true, true, true,
   Except.error "No space left on device", Except.ok (), Except.ok (),
   Except.ok (), Except.ok (), Except.ok (), Except.ok (), Except.ok (),
   Except.ok (), Except.ok (), Except.ok ()⟩

/-- A run in which pyarrow is not importable while everything else is
available and every write would succeed. -/
def demoEnvNoPyarrow : Main.RunEnv :=
  ⟨[goodRecord], false, true, true, true,
   Except.ok (), Except.ok (), Except.ok (), Except.ok (), Except.ok (),
   Except.ok (), Except.ok (), Except.ok (), Except.ok (), Except.ok (),
   Except.ok ()⟩

/-- C3, counterexample: a suffix bucket with exactly one record is
handed to the JSON grouped writer as the bare dumped dict
(`suffix_data[0]`), and the writer dumps it as a bare JSON object: the
written value is the object itself, not the one-element array the
claim requires. -/
theorem json_singleton_bare_object_counterexample :
    jsonGroupedSuffixPayload [mkDemoRecord "1760005" "旭丘"]
        = Json.obj (model_dump (mkDemoRecord "1760005" "旭丘"))
    ∧ jsonGroupedSuffixPayload [mkDemoRecord "1760005" "旭丘"]
        ≠ Json.arr [model_dump (mkDemoRecord "1760005" "旭丘")] := by
  exact ⟨by decide, by decide⟩

/-- C3, amended: the CSV and XML (likewise NDJSON, TOML, MessagePack,
BSON, Parquet) grouped writers re-wrap the unwrapped singleton, so
their files still carry a single-element collection (header plus one
row; a document with one record element); the JSON grouped writer
alone serializes a singleton suffix bucket as a bare object rather
than a one-element array. -/
theorem grouped_singleton_collection_amended (rs : List JapanPostalCode)
    (h : rs ≠ []) :
    save_single_csv_file (csvGroupedSuffixPayload rs)
        = fieldnames :: rs.map (fun r => csvRowOf (model_dump r))
    ∧ save_single_xml_file (groupedSuffixArg rs) = rs.map xmlRecordElem
    ∧ (rs.length = 1 → jsonGroupedSuffixPayload rs = Json.obj (model_dump (rs.head h)))
    ∧ (rs.length > 1 → jsonGroupedSuffixPayload rs = Json.arr (rs.map model_dump)) := by
  cases rs with
  | nil => exact absurd rfl h
  | cons a t =>
    cases t with
    | nil =>
      exact ⟨rfl, rfl, fun _ => rfl, fun hgt => absurd hgt (by simp)⟩
    | cons b t2 =>
      have hc : ((a :: b :: t2).map model_dump).length > 1 := by
        simp only [List.length_map, List.length_cons]
        omega
      have hc2 : (a :: b :: t2).length > 1 := by
        simp only [List.length_cons]
        omega
      refine ⟨?_, ?_, ?_, ?_⟩
      · unfold csvGroupedSuffixPayload save_single_csv_file
        rw [if_pos hc]
        simp [List.map_map, Function.comp]
      · unfold groupedSuffixArg save_single_xml_file
        rw [if_pos hc2]
      · intro h1
        simp only [List.length_cons] at h1
        omega
      · intro _
        unfold jsonGroupedSuffixPayload
        rw [if_pos hc]

/-- Witness for C3's amended statement at a two-record bucket and (via
the one-record case of the same theorem) a singleton bucket. -/
theorem grouped_singleton_collection_amended_witness :
    ([mkDemoRecord "1760005" "旭丘"] : List JapanPostalCode) ≠ []
    ∧ (save_single_csv_file (csvGroupedSuffixPayload [mkDemoRecord "1760005" "旭丘"])
          = fieldnames
            :: [mkDemoRecord "1760005" "旭丘"].map (fun r => csvRowOf (model_dump r))
      ∧ save_single_xml_file (groupedSuffixArg [mkDemoRecord "1760005" "旭丘"])
          = [mkDemoRecord "1760005" "旭丘"].map xmlRecordElem
      ∧ (([mkDemoRecord "1760005" "旭丘"] : List JapanPostalCode).length = 1 →
          jsonGroupedSuffixPayload [mkDemoRecord "1760005" "旭丘"]
            = Json.obj (model_dump
                (([mkDemoRecord "1760005" "旭丘"] : List JapanPostalCode).head
                  (by decide))))
      ∧ (([mkDemoRecord "1760005" "旭丘"] : List JapanPostalCode).length > 1 →
          jsonGroupedSuffixPayload [mkDemoRecord "1760005" "旭丘"]
            = Json.arr ([mkDemoRecord "1760005" "旭丘"].map model_dump))) :=
  ⟨by decide, grouped_singleton_collection_amended [mkDemoRecord "1760005" "旭丘"]
      (by decide)⟩

/-- C4 (code bug): on a batch with one well-formed and one malformed
row, `scripts/utils.py`'s reader returns the validated records with
the error count, as the claim describes, but `scripts/main.py`'s
`read_csv_data` — the one `main()` calls — only executes `return
data` when no row failed, so the same batch makes it fall off the end
and return `None`, discarding the valid records despite its docstring
and `List[JapanPostalCode]` annotation. -/
theorem read_csv_data_main_drops_valid_records :
    UtilsReader.read_csv_data [goodRow, badRow] = ([goodRecord], 1)
    ∧ MainReader.read_csv_data [goodRow, badRow] = none := by
  exact ⟨by decide, by decide⟩

/-- C5, counterexample: an I/O error in the JSON sink's write is
caught by the sink's except handler, which then calls `sys.exit(1)` —
the invocation ends the process with status 1 instead of converting
the failure into a non-fatal reported status, so the run's exit code
is 1, not 0. -/
theorem sink_write_error_terminates_counterexample :
    sinkOutcome (Except.error "No space left on device")
        = SinkOutcome.exitProcess 1
    ∧ Main.mainExitCode demoEnvJsonFail = 1
    ∧ Main.mainExitCode demoEnvJsonFail ≠ 0 := by
  exact ⟨rfl, by decide, by decide⟩

/-- C5, amended: an error raised during a sink's write is caught at
that sink's except boundary and a message is printed, but the handler
then calls `sys.exit(1)`: the whole process terminates with exit
status 1 (cancelling still-unfinished sibling sinks); only the
missing-library early returns produce a non-fatal skipped status. -/
theorem sink_write_error_exit_code (env : Main.RunEnv) (e : String)
    (h : env.jsonWrite = Except.error e) :
    Main.save_json env.jsonWrite = SinkOutcome.exitProcess 1
    ∧ Main.mainExitCode env = 1 := by
  constructor
  · rw [h]
    rfl
  · unfold Main.mainExitCode Main.mainOutcomes gatherExitCode
    rw [h]
    rfl

/-- Witness for C5's amended statement at the failing-JSON run. -/
theorem sink_write_error_exit_code_witness :
    demoEnvJsonFail.jsonWrite = Except.error "No space left on device"
    ∧ (Main.save_json demoEnvJsonFail.jsonWrite = SinkOutcome.exitProcess 1
      ∧ Main.mainExitCode demoEnvJsonFail = 1) :=
  ⟨rfl, sink_write_error_exit_code demoEnvJsonFail "No space left on device" rfl⟩

/-- C6, counterexample: constructing a record whose raw postal code is
the seven fullwidth digits １２３４５６７ succeeds — Python's
`str.isdigit` accepts fullwidth digits — although the stored value is
not a string of ASCII digits, refuting the claim that construction
fails whenever the trimmed postal code is not exactly 7 ASCII
digits. -/
theorem validate_postal_code_fullwidth_counterexample :
    mkJapanPostalCode demoRawFullwidth
        = Except.ok
          ⟨some "13120", some "176", "１２３４５６７", some "トウキョウト", some "ネリマク",
           some "アサヒガオカ", some "東京都", some "練馬区", some "旭丘",
           "0", "0", "0", "0", "0", "0"⟩
    ∧ ("１２３４５６７".toList.all Char.isDigit) = false
    ∧ strLen "１２３４５６７" = 7 := by
  exact ⟨by decide, by decide, by decide⟩

/-- C6, amended: the postal-code validation succeeds exactly when a
value is present and its trimmed form has length 7 with every
character accepted by Python's `str.isdigit` — a superset of the
ASCII digits that also admits other Unicode digit characters such as
fullwidth digits — and then the stored postal code is the trimmed
string; the failure stays per-record (the readers catch it row by
row), and the other validated fields can independently reject a
record. -/
theorem validate_postal_code_spec (v : Option String) :
    ((∃ s, validate_postal_code v = Except.ok s) ↔
      (∃ w, v = some w ∧ strLen (pyStrip w) = 7
        ∧ pyIsDigitStr (pyStrip w) = true))
    ∧ ∀ s, validate_postal_code v = Except.ok s → s = pyStrip (v.getD "") := by
  cases v with
  | none =>
    refine ⟨⟨?_, ?_⟩, ?_⟩
    · rintro ⟨s, hs⟩
      cases hs
    · rintro ⟨w, hw, _⟩
      cases hw
    · intro s hs
      cases hs
  | some w =>
    by_cases hc : strLen (pyStrip w) ≠ 7 ∨ pyIsDigitStr (pyStrip w) = false
    · have hval : validate_postal_code (some w)
          = Except.error "Postal code must be 7 digits" := by
        simp only [validate_postal_code]
        exact if_pos hc
      refine ⟨⟨?_, ?_⟩, ?_⟩
      · rintro ⟨s, hs⟩
        rw [hval] at hs
        cases hs
      · rintro ⟨w2, hw2, h7, hdig⟩
        obtain rfl : w2 = w := (Option.some.inj hw2).symm
        rcases hc with hc | hc
        · exact absurd h7 hc
        · rw [hdig] at hc
          cases hc
      · intro s hs
        rw [hval] at hs
        cases hs
    · have h7 : strLen (pyStrip w) = 7 := by
        by_contra hne
        exact hc (Or.inl hne)
      have hdig : pyIsDigitStr (pyStrip w) = true := by
        cases hB : pyIsDigitStr (pyStrip w) with
        | true => rfl
        | false => exact absurd (Or.inr hB) hc
      have hval : validate_postal_code (some w) = Except.ok (pyStrip w) := by
        simp only [validate_postal_code]
        exact if_neg hc
      refine ⟨⟨fun _ => ⟨w, rfl, h7, hdig⟩, fun _ => ⟨pyStrip w, hval⟩⟩, ?_⟩
      intro s hs
      rw [hval] at hs
      exact (Except.ok.inj hs).symm

/-- Witness for C6's amended statement at a plain ASCII postal code. -/
theorem validate_postal_code_spec_witness :
    ((∃ s, validate_postal_code (some " 1760005 ") = Except.ok s) ↔
      (∃ w, (some " 1760005 " : Option String) = some w
        ∧ strLen (pyStrip w) = 7 ∧ pyIsDigitStr (pyStrip w) = true))
    ∧ ∀ s, validate_postal_code (some " 1760005 ") = Except.ok s →
        s = pyStrip ((some " 1760005 " : Option String).getD "") :=
  validate_postal_code_spec (some " 1760005 ")

/-- C7, counterexample: the SQLite sink stores `str(None)` for an
absent optional field, so a record without an old postal code is
written with the literal TEXT value None in that column, and decoding
yields the string None instead of an absent value — the round trip is
not field-for-field faithful. -/
theorem sqlite_absent_field_roundtrip_counterexample :
    demoRecordNoOld.old_postal_code = none
    ∧ (sqliteRowOf demoRecordNoOld).getD 1 "" = "None"
    ∧ sqliteDecodedFields demoRecordNoOld ≠ model_dump demoRecordNoOld := by
  exact ⟨rfl, by decide, by decide⟩

/-- C7, amended: for a record whose fields are all present, the SQLite
sink's stored row decodes back field-for-field (every value is a TEXT
string stored and returned verbatim, so leading zeros survive); an
absent optional field, however, is stored as the string None and
decodes as that string, not as absent. -/
theorem sqlite_roundtrip_amended (r : JapanPostalCode)
    (h : (model_dump r).all (fun kv => kv.2.isSome) = true) :
    sqliteDecodedFields r = model_dump r := by
  unfold sqliteDecodedFields
  have hall := List.all_eq_true.1 h
  have hpt : ∀ kv ∈ model_dump r, (kv.1, some (pyStr kv.2)) = kv := by
    intro kv hkv
    obtain ⟨s, hs⟩ := Option.isSome_iff_exists.1 (by simpa using hall kv hkv)
    obtain ⟨k1, k2⟩ := kv
    simp only at hs
    rw [hs]
    rfl
  exact (List.map_congr_left hpt).trans (List.map_id _)

/-- Witness for C7's amended statement at a fully populated record. -/
theorem sqlite_roundtrip_amended_witness :
    (model_dump goodRecord).all (fun kv => kv.2.isSome) = true
    ∧ sqliteDecodedFields goodRecord = model_dump goodRecord :=
  ⟨by decide, sqlite_roundtrip_amended goodRecord (by decide)⟩

/-- C8, counterexample: with pyarrow absent, the Parquet sink is
skipped as the claim says, but Feather — another enabled format,
which also encodes through pyarrow — is skipped too, so not all other
enabled formats' outputs are produced. -/
theorem pyarrow_absent_feather_not_produced_counterexample :
    Main.save_parquet demoEnvNoPyarrow.pyarrowAvailable
        demoEnvNoPyarrow.parquetWrite = SinkOutcome.skipped
    ∧ Main.save_feather demoEnvNoPyarrow.pyarrowAvailable
        demoEnvNoPyarrow.featherWrite ≠ SinkOutcome.completed
    ∧ Main.mainExitCode demoEnvNoPyarrow = 0 := by
  exact ⟨rfl, by decide, by decide⟩

/-- C8, amended: in a run with pyarrow absent, the other optional
libraries importable and every write succeeding, the Parquet write and
grouped write report the format as skipped without raising or exiting,
every format whose own encoding library is present completes (pyarrow's
absence also skips Feather, which shares that library), and the
process exits 0. -/
theorem pyarrow_absent_skip_amended (env : Main.RunEnv)
    (hpa : env.pyarrowAvailable = false)
    (hm : env.msgpackAvailable = true) (ht : env.tomliwAvailable = true)
    (hb : env.bsonAvailable = true)
    (hok : env.jsonWrite = Except.ok () ∧ env.yamlWrite = Except.ok ()
      ∧ env.csvWrite = Except.ok () ∧ env.xmlWrite = Except.ok ()
      ∧ env.msgpackWrite = Except.ok () ∧ env.ndjsonWrite = Except.ok ()
      ∧ env.tomlWrite = Except.ok () ∧ env.bsonWrite = Except.ok ()
      ∧ env.sqliteWrite = Except.ok ()) :
    Main.mainOutcomes env
        = [SinkOutcome.completed, SinkOutcome.completed, SinkOutcome.completed,
           SinkOutcome.completed, SinkOutcome.skipped, SinkOutcome.completed,
           SinkOutcome.completed, SinkOutcome.completed, SinkOutcome.skipped,
           SinkOutcome.completed, SinkOutcome.completed]
    ∧ ParquetFormat.save_grouped_parquet env.pyarrowAvailable env.parquetWrite
        = SinkOutcome.skipped
    ∧ Main.mainExitCode env = 0 := by
  obtain ⟨hj, hy, hc, hx, hmw, hn, htw, hbw, hs⟩ := hok
  have hcsv : Main.save_csv env.data env.csvWrite = SinkOutcome.completed := by
    unfold Main.save_csv
    rw [hc]
    by_cases hd : env.data.isEmpty
    · rw [if_pos hd]
    · rw [if_neg hd]
      rfl
  have houtc : Main.mainOutcomes env
      = [SinkOutcome.completed, SinkOutcome.completed, SinkOutcome.completed,
         SinkOutcome.completed, SinkOutcome.skipped, SinkOutcome.completed,
         SinkOutcome.completed, SinkOutcome.completed, SinkOutcome.skipped,
         SinkOutcome.completed, SinkOutcome.completed] := by
    unfold Main.mainOutcomes
    rw [hcsv, hj, hy, hx, hpa, hmw, hn, htw, hbw, hs, hm, ht, hb]
    rfl
  refine ⟨houtc, ?_, ?_⟩
  · unfold ParquetFormat.save_grouped_parquet
    rw [hpa]
    rfl
  · unfold Main.mainExitCode
    rw [houtc]
    rfl

/-- Witness for C8's amended statement at the pyarrow-absent run. -/
theorem pyarrow_absent_skip_amended_witness :
    demoEnvNoPyarrow.pyarrowAvailable = false
    ∧ (Main.mainOutcomes demoEnvNoPyarrow
        = [SinkOutcome.completed, SinkOutcome.completed, SinkOutcome.completed,
           SinkOutcome.completed, SinkOutcome.skipped, SinkOutcome.completed,
           SinkOutcome.completed, SinkOutcome.completed, SinkOutcome.skipped,
           SinkOutcome.completed, SinkOutcome.completed]
      ∧ ParquetFormat.save_grouped_parquet demoEnvNoPyarrow.pyarrowAvailable
          demoEnvNoPyarrow.parquetWrite = SinkOutcome.skipped
      ∧ Main.mainExitCode demoEnvNoPyarrow = 0) :=
  ⟨rfl, pyarrow_absent_skip_amended demoEnvNoPyarrow rfl rfl rfl rfl
    ⟨rfl, rfl, rfl, rfl, rfl, rfl, rfl, rfl, rfl⟩⟩

/-- C9: along every schedule of a grouped write's file-write tasks,
the number of writes concurrently holding a semaphore slot never
exceeds the limiter value — 100 for the text and structured formats,
50 for Parquet — and the limiter only delays admission: tasks are
admitted in creation order without loss (the admitted history plus the
still-pending queue is exactly the task list, and every admitted task
is running or done). -/
theorem semaphore_cap_invariant (tasks : List OutPath) (s1 s2 : SemState)
    (h1 : Relation.ReflTransGen (SemStep textFormatSemaphoreLimit)
      (semInit tasks) s1)
    (h2 : Relation.ReflTransGen (SemStep parquetSemaphoreLimit)
      (semInit tasks) s2) :
    textFormatSemaphoreLimit = 100 ∧ parquetSemaphoreLimit = 50
    ∧ s1.running.length ≤ 100 ∧ s2.running.length ≤ 50
    ∧ s1.admitted ++ s1.pending = tasks ∧ s2.admitted ++ s2.pending = tasks
    ∧ List.Perm (s1.done ++ s1.running) s1.admitted
    ∧ List.Perm (s2.done ++ s2.running) s2.admitted := by
  obtain ⟨c1, p1, m1⟩ := sem_invariant h1
  obtain ⟨c2, p2, m2⟩ := sem_invariant h2
  exact ⟨rfl, rfl, c1, c2, p1, p2, m1, m2⟩

/-- The single file-write task of the witness schedule. -/
def semDemoTask : OutPath := OutPath.preFile "176"

/-- The state after the witness schedule admits its one task. -/
def semDemoState : SemState := ⟨[], [semDemoTask], [semDemoTask], []⟩

/-- Witness for C9 after one admission step under each limiter. -/
theorem semaphore_cap_invariant_witness :
    textFormatSemaphoreLimit = 100 ∧ parquetSemaphoreLimit = 50
    ∧ semDemoState.running.length ≤ 100 ∧ semDemoState.running.length ≤ 50
    ∧ semDemoState.admitted ++ semDemoState.pending = [semDemoTask]
    ∧ semDemoState.admitted ++ semDemoState.pending = [semDemoTask]
    ∧ List.Perm (semDemoState.done ++ semDemoState.running) semDemoState.admitted
    ∧ List.Perm (semDemoState.done ++ semDemoState.running)
        semDemoState.admitted :=
  semaphore_cap_invariant [semDemoTask] semDemoState semDemoState
    (Relation.ReflTransGen.single
      (SemStep.acquire semDemoTask [] [] [] [] (by decide)))
    (Relation.ReflTransGen.single
      (SemStep.acquire semDemoTask [] [] [] [] (by decide)))

/-- C10: invoked on an empty record list, the whole-dataset CSV writer
returns early with success and creates no file at all — not even a
header-only one — while the JSON and XML whole-dataset writers given
the same input still write an empty collection (an empty JSON array; a
`postal_codes` document with no record elements). -/
theorem save_csv_empty_no_file :
    CsvFormat.save_csv [] (Except.ok ()) = (SinkOutcome.completed, none)
    ∧ CsvFormat.save_csv [] (Except.error "any") = (SinkOutcome.completed, none)
    ∧ JsonFormat.save_json [] (Except.ok ())
        = (SinkOutcome.completed, some (Json.arr []))
    ∧ XmlFormat.save_xml [] (Except.ok ())
        = (SinkOutcome.completed, some []) := by
  exact ⟨rfl, rfl, rfl, rfl⟩
